import Mathlib

set_option linter.unusedVariables false

/-!
Verification of the `AssetTransferContract` chaincode
(`src/node/src/revocationTransfer.ts`).

The contract stores three record kinds (deployments, revocations and a
transaction log) in one flat key-value world state.  Every record is
serialized with `json-stringify-deterministic` after `sort-keys-recursive`,
so the embedding models JSON values, the recursive key-sorting encoder, the
world state as a key-sorted association list, and each public transaction
method as a function from world state (plus its string arguments) to
either a new world state or an error message.

Modelling conventions, matching Hyperledger Fabric semantics:

* `getState` during a transaction reads the committed snapshot; a
  transaction's own writes become visible only after it commits, and a
  failed (thrown) transaction commits nothing (`commit` below).
* `ctx.stub.getState` returns an empty byte array for an absent key, so
  the `length > 0` existence checks treat absent and empty alike.
* A stored value is either the canonical encoding of a JSON record
  (`Val.json`) or an opaque byte string that does not parse as JSON
  (`Val.raw`); `parseVal` models `JSON.parse` on this granularity.
* In `Revoke` (line 139 of the source) the first argument of the second
  `putState` is the undeclared identifier `eploymentID`; evaluating it
  throws a `ReferenceError`, so `Revoke` always fails after its existence
  check and the final `deleteState` is never reached.  The unawaited
  `this.CreateAsset(...)` call inside `Revoke` rejects with
  "already exists" (the deployment occupies the key it is given) and
  writes nothing.
* In `Deployment` the unawaited `this.CreateAsset(...)` call checks a
  fresh key against the committed snapshot (absent), so it issues a
  `putState` of the transaction-log record under the deployment's own key.
  The chaincode messages travel over one ordered stream and the peer
  handles them in order, so the log write is issued after the method's own
  `putState` and before the transaction completes: the committed state
  holds the log record, which has overwritten the deployment record.
-/

/-- JSON values as used by the contract: every record is an object whose
leaves are strings (the only `Date` value is serialized to its ISO string
by `JSON.stringify`). -/
inductive JVal where
  | jstr : String → JVal
  | jobj : List (String × JVal) → JVal

/-- Strict lexicographic order on character lists, by code point. -/
def charListLtB : List Char → List Char → Bool
  | [], [] => false
  | [], _ :: _ => true
  | _ :: _, [] => false
  | a :: as, b :: bs =>
    if a.toNat < b.toNat then true
    else if b.toNat < a.toNat then false
    else charListLtB as bs

/-- Strict code-point order on strings. -/
def strLtB (s t : String) : Bool := charListLtB s.data t.data

/-- Reflexive code-point order on strings. -/
def strLeB (s t : String) : Bool := !(strLtB t s)

theorem charListLtB_asymm : ∀ as bs, charListLtB as bs = true → charListLtB bs as = false := by
  intro as
  induction as with
  | nil => intro bs h; cases bs <;> simp_all [charListLtB]
  | cons a as ih =>
    intro bs h
    cases bs with
    | nil => simp [charListLtB] at h
    | cons b bs =>
      simp only [charListLtB] at h ⊢
      by_cases h1 : a.toNat < b.toNat
      · simp [h1, Nat.lt_asymm h1, Nat.ne_of_lt' h1]
      · by_cases h2 : b.toNat < a.toNat
        · simp [h1, h2] at h
        · simp [h1, h2] at h ⊢
          exact ih bs h

theorem charListLtB_trans : ∀ as bs cs, charListLtB as bs = true → charListLtB bs cs = true →
    charListLtB as cs = true := by
  intro as
  induction as with
  | nil =>
    intro bs cs h1 h2
    cases bs with
    | nil => simp [charListLtB] at h1
    | cons b bs => cases cs with
      | nil => simp [charListLtB] at h2
      | cons c cs => simp [charListLtB]
  | cons a as ih =>
    intro bs cs h1 h2
    cases bs with
    | nil => simp [charListLtB] at h1
    | cons b bs =>
      cases cs with
      | nil => simp [charListLtB] at h2
      | cons c cs =>
        simp only [charListLtB] at h1 h2 ⊢
        by_cases hab : a.toNat < b.toNat
        · by_cases hbc : b.toNat < c.toNat
          · have : a.toNat < c.toNat := Nat.lt_trans hab hbc
            simp [this]
          · by_cases hcb : c.toNat < b.toNat
            · simp [hbc, hcb] at h2
            · have : a.toNat < c.toNat := by omega
              simp [this]
        · by_cases hba : b.toNat < a.toNat
          · simp [hab, hba] at h1
          · by_cases hbc : b.toNat < c.toNat
            · have : a.toNat < c.toNat := by omega
              simp [this]
            · by_cases hcb : c.toNat < b.toNat
              · simp [hbc, hcb] at h2
              · have hac : ¬ a.toNat < c.toNat := by omega
                have hca : ¬ c.toNat < a.toNat := by omega
                simp only [hac, hca, if_false]
                exact ih bs cs (by simpa [hab, hba] using h1) (by simpa [hbc, hcb] using h2)

theorem charListLtB_connex : ∀ as bs, charListLtB as bs = false → charListLtB bs as = false →
    as = bs := by
  intro as
  induction as with
  | nil => intro bs h1 _; cases bs <;> simp_all [charListLtB]
  | cons a as ih =>
    intro bs h1 h2
    cases bs with
    | nil => simp [charListLtB] at h2
    | cons b bs =>
      simp only [charListLtB] at h1 h2
      by_cases hab : a.toNat < b.toNat
      · simp [hab] at h1
      · by_cases hba : b.toNat < a.toNat
        · simp [hab, hba] at h2
        · have : a.toNat = b.toNat := by omega
          have hc : a = b := Char.ext (UInt32.ext this)
          have := ih bs (by simpa [hab, hba] using h1) (by simpa [hab, hba] using h2)
          rw [hc, this]

theorem strLtB_asymm (s t : String) (h : strLtB s t = true) : strLtB t s = false :=
  charListLtB_asymm s.data t.data h

theorem strLtB_trans (s t u : String) (h1 : strLtB s t = true) (h2 : strLtB t u = true) :
    strLtB s u = true :=
  charListLtB_trans s.data t.data u.data h1 h2

theorem strLtB_connex (s t : String) (h1 : strLtB s t = false) (h2 : strLtB t s = false) :
    s = t := by
  have h := charListLtB_connex s.data t.data h1 h2
  cases s; cases t
  exact congrArg String.mk h

/-- Key order used when sorting the fields of an object: compare the field
names by code point (the order used by `sort-keys-recursive` and
`json-stringify-deterministic`). -/
def fieldLE (p q : String × JVal) : Prop := strLeB p.1 q.1 = true

/-- Strict version of `fieldLE`, used to show sorted field lists are unique. -/
def fieldLT (p q : String × JVal) : Prop := strLtB p.1 q.1 = true

instance : DecidableRel fieldLE := fun p q => inferInstanceAs (Decidable (strLeB p.1 q.1 = true))

instance : IsTotal (String × JVal) fieldLE := by
  constructor
  intro p q
  by_cases h : strLtB q.1 p.1 = true
  · right
    have := strLtB_asymm q.1 p.1 h
    simp [fieldLE, strLeB, this]
  · left
    simp [fieldLE, strLeB]
    simpa using h

instance : IsTrans (String × JVal) fieldLE := by
  constructor
  intro p q u h1 h2
  simp only [fieldLE, strLeB, Bool.not_eq_true'] at h1 h2 ⊢
  by_cases hup : strLtB u.1 p.1 = true
  · by_cases hqu : strLtB q.1 u.1 = true
    · have := strLtB_trans q.1 u.1 p.1 hqu hup
      rw [this] at h1; cases h1
    · by_cases huq : strLtB u.1 q.1 = true
      · rw [huq] at h2; cases h2
      · have := strLtB_connex q.1 u.1 (by simpa using hqu) (by simpa using huq)
        rw [← this] at hup
        rw [hup] at h1; cases h1
  · simpa using hup

instance : IsAntisymm (String × JVal) fieldLT := by
  constructor
  intro p q h1 h2
  simp only [fieldLT] at h1 h2
  have := strLtB_asymm p.1 q.1 h1
  rw [this] at h2; cases h2

/-- Escape a single character for a JSON string literal. -/
def escapeChar (c : Char) : String :=
  if c = '\\' then "\\\\" else if c = '"' then "\\\"" else String.singleton c

/-- Quote and escape a JSON string literal.  The records written by the
contract contain no control characters, so only the two escapes that
`JSON.stringify` always applies (backslash and double quote) are modelled. -/
def quoteStr (s : String) : String := "\"" ++ String.join (s.data.map escapeChar) ++ "\""

mutual

/-- Compact JSON serialization (`JSON.stringify` with no whitespace),
applied by the contract after recursive key sorting. -/
def serialize : JVal → String
  | .jstr s => quoteStr s
  | .jobj l => "\x7b" ++ serializeFields l ++ "\x7d"

/-- Serialize an object's field list with comma separators. -/
def serializeFields : List (String × JVal) → String
  | [] => ""
  | [(k, v)] => quoteStr k ++ ":" ++ serialize v
  | (k, v) :: rest => quoteStr k ++ ":" ++ serialize v ++ "," ++ serializeFields rest

end

mutual

/-- The composition `sortKeysRecursive` from the `sort-keys-recursive`
package: sort every object's field list by key, recursively at every
nesting level. -/
def sortKeysRecursive : JVal → JVal
  | .jstr s => .jstr s
  | .jobj l => .jobj (List.insertionSort fieldLE (sortFields l))

/-- Apply `sortKeysRecursive` to every value of a field list. -/
def sortFields : List (String × JVal) → List (String × JVal)
  | [] => []
  | (k, v) :: rest => (k, sortKeysRecursive v) :: sortFields rest

end

/-- The canonical encoder used on every write path:
`stringify(sortKeysRecursive(record))`. -/
def encode (v : JVal) : String := serialize (sortKeysRecursive v)

/-- Field presence on a parsed JSON value, as JavaScript's
`record.field !== undefined` (false on non-objects). -/
def hasField (v : JVal) (f : String) : Bool :=
  match v with
  | .jstr _ => false
  | .jobj l => l.any (fun p => p.1 == f)

/-- Field lookup on a parsed JSON value. -/
def getField (v : JVal) (f : String) : Option JVal :=
  match v with
  | .jstr _ => none
  | .jobj l => (l.find? (fun p => p.1 == f)).map Prod.snd

/-- No string occurs twice in the list (field names of a JavaScript object
are pairwise distinct). -/
def keysDistinct : List String → Bool
  | [] => true
  | k :: rest => (!(rest.contains k)) && keysDistinct rest

mutual

/-- Every object in the value, at every nesting level, has pairwise
distinct field names. -/
def nodupKeysRec : JVal → Bool
  | .jstr _ => true
  | .jobj l => keysDistinct (l.map Prod.fst) && nodupFields l

/-- `nodupKeysRec` for each value of a field list. -/
def nodupFields : List (String × JVal) → Bool
  | [] => true
  | (_, v) :: rest => nodupKeysRec v && nodupFields rest

end

mutual

/-- `PermOf v w` holds when `w` is obtained from `v` by permuting the field
order of the record and of its nested mappings: at each object, first
permute each field's value recursively, then reorder the field list. -/
inductive PermOf : JVal → JVal → Prop where
  | str (s : String) : PermOf (.jstr s) (.jstr s)
  | obj {l m l2 : List (String × JVal)} :
      PermFields l m → List.Perm m l2 → PermOf (.jobj l) (.jobj l2)

/-- Pointwise `PermOf` on field lists, keeping keys and order. -/
inductive PermFields : List (String × JVal) → List (String × JVal) → Prop where
  | nil : PermFields [] []
  | cons {k : String} {v w : JVal} {l m : List (String × JVal)} :
      PermOf v w → PermFields l m → PermFields ((k, v) :: l) ((k, w) :: m)

end

/-- A value stored in the world state: either the canonical encoding of a
JSON record, or an opaque byte string that fails `JSON.parse`. -/
inductive Val where
  | json : JVal → Val
  | raw : String → Val

/-- The bytes actually stored for a value. -/
def bytesOf : Val → String
  | .json v => serialize v
  | .raw s => s

/-- `JSON.parse` on a stored value: encoded records parse back to the
record (the contract always stores key-sorted encodings), opaque strings
fail to parse. -/
def parseVal : Val → Option JVal
  | .json v => some v
  | .raw _ => none

/-- The world state: an association list from key to stored value, kept
sorted by key (Fabric's range scan enumerates keys in lexicographic
order), with at most one entry per key. -/
def WState : Type := List (String × Val)

/-- Read a key from the committed world state (`ctx.stub.getState`). -/
def getState : WState → String → Option Val
  | [], _ => none
  | (k', v') :: rest, k => if k = k' then some v' else getState rest k

/-- Write a key (`ctx.stub.putState`): insert in key order, replacing any
existing entry for the same key. -/
def putState : WState → String → Val → WState
  | [], k, v => [(k, v)]
  | (k', v') :: rest, k, v =>
    if strLtB k k' = true then (k, v) :: (k', v') :: rest
    else if k = k' then (k, v) :: rest
    else (k', v') :: putState rest k v

/-- Remove a key (`ctx.stub.deleteState`). -/
def deleteState : WState → String → WState
  | [], _ => []
  | (k', v') :: rest, k => if k = k' then rest else (k', v') :: deleteState rest k

/-- The byte string returned by `ctx.stub.getState`: Fabric returns an
empty byte array for an absent key. -/
def bytesAt (st : WState) (k : String) : String :=
  match getState st k with
  | some v => bytesOf v
  | none => ""

/-- The world state after a transaction commits: a transaction that threw
commits none of its writes, so the committed state is unchanged. -/
def commit (st : WState) (r : Except String WState) : WState :=
  match r with
  | .ok st' => st'
  | .error _ => st

/-- The fixed module-level `date` constant: `toDate(TIMESTAMP)` is
`new Date(1659172409567)`, which `JSON.stringify` serializes to its ISO
string. -/
def dateStr : String := "2022-07-30T09:13:29.567Z"

/-- The id generator at line 32:
`Date.now().toString(36) + Math.random().toString(36).substr(2)`.
The current time and the random draw are environment inputs, modelled as
the two arguments (already base-36 encoded). -/
def generateUniqueId (nowBase36 randBase36 : String) : String := nowBase36 ++ randBase36

/-- The seed revocation of `InitLedger` (lines 45-51), with the source's
field insertion order. -/
def initRevocation : JVal :=
  .jobj [("targetDeploymentID", .jstr "123"), ("reason", .jstr "example"),
         ("RevocationID", .jstr "1")]

/-- The deployment object built by `Deployment` (lines 158-163), with the
source's field insertion order. -/
def deploymentRecord (authorID comment payload deploymentID : String) : JVal :=
  .jobj [("deploymentID", .jstr deploymentID), ("comment", .jstr comment),
         ("authorID", .jstr authorID), ("payload", .jstr payload)]

/-- The transaction-log object built by `CreateAsset` (lines 219-224), with
the source's field insertion order. -/
def transactionLogRecord (ID authorID time description : String) : JVal :=
  .jobj [("transactionID", .jstr ID), ("authorID", .jstr authorID),
         ("time", .jstr time), ("description", .jstr description)]

/-- The revocation object built by `Revoke` (lines 131-135), with the
source's field insertion order.  Note the lower-case `revocationID` field,
while `GetAllRevocations` filters on `RevocationID`.  This record is dead
code: the `putState` that would store it throws on the undeclared
identifier `eploymentID`. -/
def revocationRecord (deploymentID reason id : String) : JVal :=
  .jobj [("targetDeploymentID", .jstr deploymentID), ("reason", .jstr reason),
         ("revocationID", .jstr id)]

/-- `InitLedger` (lines 44-64): unconditionally writes the encoded seed
revocation under key "1". -/
def InitLedger (st : WState) : WState :=
  putState st "1" (Val.json (sortKeysRecursive initRevocation))

/-- `GetRevocationByID` (lines 67-77). -/
def GetRevocationByID (st : WState) (RevocationID : String) : Except String String :=
  if (bytesAt st RevocationID).length == 0 then
    .error ("The asset " ++ RevocationID ++ " does not exist")
  else .ok (bytesAt st RevocationID)

/-- `ValidateRevocation` (lines 80-88): true when the key holds a
non-empty value. -/
def ValidateRevocation (st : WState) (RevocationID : String) : Bool :=
  (bytesAt st RevocationID).length != 0

/-- `GetAllRevocations` (lines 91-116): full range scan; each value that
parses and has a defined `RevocationID` field is collected (a value that
fails to parse is kept as a plain string, whose `RevocationID` access is
`undefined`, so it is dropped). -/
def GetAllRevocations (st : WState) : List JVal :=
  st.filterMap (fun p =>
    match parseVal p.2 with
    | some record => if hasField record "RevocationID" then some record else none
    | none => none)

/-- `ValidateDeployment` (lines 187-195): true when the key holds a
non-empty value. -/
def ValidateDeployment (st : WState) (deploymentID : String) : Bool :=
  (bytesAt st deploymentID).length != 0

/-- `TransactionExists` (lines 198-203): true when the key holds a
non-empty value. -/
def TransactionExists (st : WState) (id : String) : Bool :=
  (bytesAt st id).length != 0

/-- `Revoke` (lines 119-144).  After the existence check passes, the body
builds `generateUniqueId()` and the revocation object, fires the unawaited
`this.CreateAsset(ctx, deploymentID, authorID, date, reason)` (which
rejects: the deployment occupies key `deploymentID`, so its
`TransactionExists` check is true; it writes nothing), and then evaluates
`ctx.stub.putState(eploymentID, ...)` — `eploymentID` is not declared
anywhere, so a `ReferenceError` is thrown: the transaction always fails
here, nothing is written, and the final `deleteState` is never reached. -/
def Revoke (nowBase36 randBase36 : String) (st : WState)
    (deploymentID reason authorID : String) : Except String WState :=
  if !(ValidateDeployment st deploymentID) then
    .error "The does not exist, or already has been revoked"
  else
    let id := generateUniqueId nowBase36 randBase36
    let revocation := revocationRecord deploymentID reason id
    .error "ReferenceError: eploymentID is not defined"

/-- `Deployment` (lines 145-171), the create-deployment operation.  After
the existence check fails (key free), the body fires the unawaited
`this.CreateAsset(ctx, deploymentID, authorID, date, comment)` and then
awaits its own `putState(deploymentID, deploymentBytes)`.  The unawaited
call's `TransactionExists` check reads the committed snapshot (absent), so
it issues `putState(deploymentID, logBytes)`; the peer handles the
stream's messages in order (the log write is issued after the deployment
write and before the method resolves), so both writes land and the later
log write overwrites the deployment record under the same key. -/
def Deployment (st : WState) (authorID comment payload deploymentID : String) :
    Except String WState :=
  if ValidateDeployment st deploymentID then
    .error ("The asset " ++ deploymentID ++ " already exists")
  else
    .ok (putState
          (putState st deploymentID
            (Val.json (sortKeysRecursive (deploymentRecord authorID comment payload deploymentID))))
          deploymentID
          (Val.json (sortKeysRecursive (transactionLogRecord deploymentID authorID dateStr comment))))

/-- `GetDeploymentByID` (lines 174-184). -/
def GetDeploymentByID (st : WState) (deploymentID : String) : Except String String :=
  if (bytesAt st deploymentID).length == 0 then
    .error ("The asset " ++ deploymentID ++ " does not exist")
  else .ok (bytesAt st deploymentID)

/-- `CreateAsset` (lines 205-231): append a transaction-log record under
the caller-supplied id, failing when the key is occupied.  The `time`
argument stands for the serialized `Date`. -/
def CreateAsset (st : WState) (ID authorID time description : String) :
    Except String WState :=
  if TransactionExists st ID then
    .error ("The asset " ++ ID ++ " already exists")
  else
    .ok (putState st ID
          (Val.json (sortKeysRecursive (transactionLogRecord ID authorID time description))))

/-- `ReadAsset` (lines 234-246). -/
def ReadAsset (st : WState) (id : String) : Except String String :=
  if (bytesAt st id).length == 0 then
    .error ("The log of a transaction with an ID of " ++ id ++ " does not exist")
  else .ok (bytesAt st id)

/-- `GetAllTransactionLogs` (lines 249-280): full range scan filtered on a
defined `transactionID` field. -/
def GetAllTransactionLogs (st : WState) : List JVal :=
  st.filterMap (fun p =>
    match parseVal p.2 with
    | some record => if hasField record "transactionID" then some record else none
    | none => none)

/-- A stored value that is a transaction-log record (parses and has a
defined `transactionID` field). -/
def isTransactionLogVal : Val → Bool
  | .json record => hasField record "transactionID"
  | .raw _ => false

theorem charListLtB_irrefl : ∀ as, charListLtB as as = false := by
  intro as
  induction as with
  | nil => rfl
  | cons a as ih => simp [charListLtB, ih]

theorem strLtB_irrefl (s : String) : strLtB s s = false := charListLtB_irrefl s.data

theorem getState_putState_self (st : WState) (k : String) (v : Val) :
    getState (putState st k v) k = some v := by
  induction st with
  | nil => simp [putState, getState]
  | cons p rest ih =>
    by_cases h1 : strLtB k p.1 = true
    · simp [putState, h1, getState]
    · by_cases h2 : k = p.1
      · subst h2
        simp [putState, h1, strLtB_irrefl, getState]
      · simp [putState, h1, h2, getState, ih]

theorem getState_putState_ne (st : WState) (k k' : String) (v : Val) (h : k' ≠ k) :
    getState (putState st k v) k' = getState st k' := by
  induction st with
  | nil => simp [putState, getState, h]
  | cons p rest ih =>
    by_cases h1 : strLtB k p.1 = true
    · simp [putState, h1, getState, h]
    · by_cases h2 : k = p.1
      · subst h2
        simp [putState, h1, strLtB_irrefl, getState, h]
      · simp [putState, h1, h2, getState, ih]

theorem putState_putState (st : WState) (k : String) (v w : Val) :
    putState (putState st k v) k w = putState st k w := by
  induction st with
  | nil => simp [putState, strLtB_irrefl]
  | cons p rest ih =>
    by_cases h1 : strLtB k p.1 = true
    · simp [putState, h1, strLtB_irrefl]
    · by_cases h2 : k = p.1
      · subst h2
        simp [putState, h1, strLtB_irrefl]
      · simp [putState, h1, h2, ih]

theorem serialize_jobj_length_ne_zero (l : List (String × JVal)) :
    (serialize (JVal.jobj l)).length ≠ 0 := by
  show ("\x7b" ++ serializeFields l ++ "\x7d").length ≠ 0
  rw [String.length_append, String.length_append]
  have h1 : ("\x7b" : String).length = 1 := rfl
  omega

theorem sortKeysRecursive_jobj (l : List (String × JVal)) :
    sortKeysRecursive (.jobj l) = .jobj (List.insertionSort fieldLE (sortFields l)) := rfl

/-- A stored transaction-log value occupies its key with non-empty bytes,
so every `length > 0` existence check sees it. -/
theorem isTransactionLogVal_bytes_ne_zero (v : Val) (h : isTransactionLogVal v = true) :
    (bytesOf v).length ≠ 0 := by
  cases v with
  | raw s => simp [isTransactionLogVal] at h
  | json record =>
    cases record with
    | jstr s => simp [isTransactionLogVal, hasField] at h
    | jobj l => exact serialize_jobj_length_ne_zero l

theorem sortFields_eq_map (l : List (String × JVal)) :
    sortFields l = l.map (fun p => (p.1, sortKeysRecursive p.2)) := by
  induction l with
  | nil => rfl
  | cons p rest ih => cases p with
    | mk k v => simp [sortFields, ih]

theorem map_fst_sortFields (l : List (String × JVal)) :
    (sortFields l).map Prod.fst = l.map Prod.fst := by
  rw [sortFields_eq_map, List.map_map]
  rfl

theorem nodup_of_keysDistinct : ∀ l : List String, keysDistinct l = true → l.Nodup := by
  intro l
  induction l with
  | nil => intro _; exact List.nodup_nil
  | cons k rest ih =>
    intro h
    simp only [keysDistinct, Bool.and_eq_true, Bool.not_eq_true'] at h
    refine List.nodup_cons.mpr ⟨?_, ih h.2⟩
    intro hm
    have := List.elem_iff.mpr hm
    rw [show rest.contains k = rest.elem k from rfl, this] at h
    exact Bool.noConfusion h.1

/-- Two sorted field lists that are permutations of each other and have
pairwise distinct keys are equal. -/
theorem insertionSort_eq_of_perm {l1 l2 : List (String × JVal)}
    (hp : l1.Perm l2) (hn : (l1.map Prod.fst).Nodup) :
    List.insertionSort fieldLE l1 = List.insertionSort fieldLE l2 := by
  have hperm : (List.insertionSort fieldLE l1).Perm (List.insertionSort fieldLE l2) :=
    (List.perm_insertionSort fieldLE l1).trans (hp.trans (List.perm_insertionSort fieldLE l2).symm)
  have hs1 : (List.insertionSort fieldLE l1).Sorted fieldLE := List.sorted_insertionSort fieldLE l1
  have hs2 : (List.insertionSort fieldLE l2).Sorted fieldLE := List.sorted_insertionSort fieldLE l2
  have hn1 : ((List.insertionSort fieldLE l1).map Prod.fst).Nodup :=
    (((List.perm_insertionSort fieldLE l1)).map Prod.fst).nodup_iff.mpr hn
  have hn2 : ((List.insertionSort fieldLE l2).map Prod.fst).Nodup :=
    (hperm.map Prod.fst).nodup_iff.mp hn1
  have key : ∀ (l : List (String × JVal)), l.Sorted fieldLE → ((l.map Prod.fst).Nodup) →
      l.Sorted fieldLT := by
    intro l hs hnd
    have hne : l.Pairwise (fun p q => p.1 ≠ q.1) := (List.pairwise_map).mp hnd
    have hand := List.Pairwise.and hs hne
    refine hand.imp ?_
    intro p q hpq
    rcases hpq with ⟨hle, hne'⟩
    simp only [fieldLE, strLeB, Bool.not_eq_true'] at hle
    simp only [fieldLT]
    by_cases hlt : strLtB p.1 q.1 = true
    · exact hlt
    · exact absurd (strLtB_connex p.1 q.1 (by simpa using hlt) hle) hne'
  exact List.eq_of_perm_of_sorted hperm (key _ hs1 hn1) (key _ hs2 hn2)

/-- Main invariance lemma, by strong induction on size: recursive key
sorting maps a record and any field-order permutation of it (with
pairwise distinct keys) to the same value. -/
theorem sortKeys_permOf_aux : ∀ n : Nat,
    (∀ v w, sizeOf v ≤ n → PermOf v w → nodupKeysRec v = true →
      sortKeysRecursive v = sortKeysRecursive w) ∧
    (∀ l m, sizeOf l ≤ n → PermFields l m → nodupFields l = true →
      sortFields l = sortFields m) := by
  intro n
  induction n with
  | zero =>
    constructor
    · intro v w hs
      exact absurd hs (by cases v <;> simp)
    · intro l m hs
      exact absurd hs (by cases l <;> simp)
  | succ n ih =>
    constructor
    · intro v w hs hp hn
      cases hp with
      | str s => rfl
      | @obj l m l2 hf hperm =>
        simp only [nodupKeysRec, Bool.and_eq_true] at hn
        simp only [sortKeysRecursive]
        congr 1
        have hsz : sizeOf l ≤ n := by
          have : sizeOf (JVal.jobj l) = 1 + sizeOf l := by simp
          omega
        have h1 : sortFields l = sortFields m := ih.2 l m hsz hf hn.2
        have h2 : (sortFields l).Perm (sortFields l2) := by
          rw [h1, sortFields_eq_map, show sortFields l2 = l2.map (fun p => (p.1, sortKeysRecursive p.2)) from sortFields_eq_map l2]
          exact hperm.map _
        refine insertionSort_eq_of_perm h2 ?_
        rw [map_fst_sortFields]
        exact nodup_of_keysDistinct _ hn.1
    · intro l m hs hf hn
      cases hf with
      | nil => rfl
      | @cons k v w l' m' hv hf' =>
        simp only [nodupFields, Bool.and_eq_true] at hn
        have hsv : sizeOf v ≤ n := by
          have : sizeOf ((k, v) :: l') = 1 + (1 + sizeOf k + sizeOf v) + sizeOf l' := by simp
          omega
        have hsl : sizeOf l' ≤ n := by
          have : sizeOf ((k, v) :: l') = 1 + (1 + sizeOf k + sizeOf v) + sizeOf l' := by simp
          omega
        simp only [sortFields]
        rw [ih.1 v w hsv hv hn.1, ih.2 l' m' hsl hf' hn.2]

/-- Recursive key sorting is invariant under any permutation of the field
order of a record and of its nested mappings. -/
theorem sortKeysRecursive_permOf (v w : JVal) (hp : PermOf v w) (hn : nodupKeysRec v = true) :
    sortKeysRecursive v = sortKeysRecursive w :=
  (sortKeys_permOf_aux (sizeOf v)).1 v w le_rfl hp hn

/-- C7: the canonical encoder is insensitive to field insertion order: for
every record and every permutation of its field order (including the field
order of its nested mappings), the encoded bytes are identical.  The
hypothesis `nodupKeysRec` states that field names are pairwise distinct at
every nesting level, which holds of every JavaScript object. -/
theorem c7_encode_insensitive_to_field_order (v w : JVal) (hp : PermOf v w)
    (hn : nodupKeysRec v = true) : encode v = encode w := by
  unfold encode
  rw [sortKeysRecursive_permOf v w hp hn]

/-- Witness for C7 at a record with a nested mapping, both levels permuted. -/
theorem c7_encode_insensitive_to_field_order_witness :
    nodupKeysRec (.jobj [("b", .jstr "2"), ("a", .jobj [("y", .jstr "1"), ("x", .jstr "0")])]) = true ∧
    PermOf (.jobj [("b", .jstr "2"), ("a", .jobj [("y", .jstr "1"), ("x", .jstr "0")])])
      (.jobj [("a", .jobj [("x", .jstr "0"), ("y", .jstr "1")]), ("b", .jstr "2")]) ∧
    encode (.jobj [("b", .jstr "2"), ("a", .jobj [("y", .jstr "1"), ("x", .jstr "0")])])
      = encode (.jobj [("a", .jobj [("x", .jstr "0"), ("y", .jstr "1")]), ("b", .jstr "2")]) := by
  have hperm : PermOf (.jobj [("b", .jstr "2"), ("a", .jobj [("y", .jstr "1"), ("x", .jstr "0")])])
      (.jobj [("a", .jobj [("x", .jstr "0"), ("y", .jstr "1")]), ("b", .jstr "2")]) :=
    PermOf.obj
      (PermFields.cons (PermOf.str "2")
        (PermFields.cons
          (PermOf.obj
            (PermFields.cons (PermOf.str "1") (PermFields.cons (PermOf.str "0") PermFields.nil))
            (List.Perm.swap ("x", JVal.jstr "0") ("y", JVal.jstr "1") []))
          PermFields.nil))
      (List.Perm.swap ("a", JVal.jobj [("x", JVal.jstr "0"), ("y", JVal.jstr "1")]) ("b", JVal.jstr "2") [])
  exact ⟨rfl, hperm, c7_encode_insensitive_to_field_order _ _ hperm rfl⟩

/-- C10: starting from an empty state, `InitLedger` stores the canonical
encoding of the seed revocation under key "1", so `ValidateRevocation "1"`
is true and `GetRevocationByID "1"` succeeds. -/
theorem c10_initLedger_seeds_example :
    getState (InitLedger []) "1" = some (Val.json (sortKeysRecursive initRevocation)) ∧
    bytesAt (InitLedger []) "1"
      = "\x7b\"RevocationID\":\"1\",\"reason\":\"example\",\"targetDeploymentID\":\"123\"\x7d" ∧
    ValidateRevocation (InitLedger []) "1" = true ∧
    GetRevocationByID (InitLedger []) "1"
      = .ok "\x7b\"RevocationID\":\"1\",\"reason\":\"example\",\"targetDeploymentID\":\"123\"\x7d" :=
  ⟨rfl, rfl, rfl, rfl⟩

/-- C1 (code bug): with a deployment stored under key "D1",
`Revoke("D1", "bad build", "A1")` does not succeed: the body evaluates the
undeclared identifier `eploymentID` (source line 139) and throws, so the
transaction fails, the deployment record survives, and `GetAllRevocations`
still lists nothing — the claim's scenario (success, deployment gone, one
listed revocation with `targetDeploymentID` "D1") does not hold on the
code. -/
theorem c1_revoke_always_fails_on_existing_deployment :
    ValidateDeployment
      (putState [] "D1" (Val.json (sortKeysRecursive (deploymentRecord "A1" "hello" "payload" "D1"))))
      "D1" = true ∧
    Revoke "l6dyyc3p" "4fzyo82mvyr"
      (putState [] "D1" (Val.json (sortKeysRecursive (deploymentRecord "A1" "hello" "payload" "D1"))))
      "D1" "bad build" "A1" = .error "ReferenceError: eploymentID is not defined" ∧
    ValidateDeployment
      (commit (putState [] "D1" (Val.json (sortKeysRecursive (deploymentRecord "A1" "hello" "payload" "D1"))))
        (Revoke "l6dyyc3p" "4fzyo82mvyr"
          (putState [] "D1" (Val.json (sortKeysRecursive (deploymentRecord "A1" "hello" "payload" "D1"))))
          "D1" "bad build" "A1"))
      "D1" = true ∧
    GetAllRevocations
      (commit (putState [] "D1" (Val.json (sortKeysRecursive (deploymentRecord "A1" "hello" "payload" "D1"))))
        (Revoke "l6dyyc3p" "4fzyo82mvyr"
          (putState [] "D1" (Val.json (sortKeysRecursive (deploymentRecord "A1" "hello" "payload" "D1"))))
          "D1" "bad build" "A1")) = [] :=
  ⟨rfl, rfl, rfl, rfl⟩

/-- C4: when no deployment occupies the key, `Revoke` fails at its first
existence check with the not-found error, and — nothing having been
written before the throw, and a failed transaction committing nothing —
the committed state is unchanged: no log entry, no revocation record, no
deleted key. -/
theorem c4_revoke_missing_fails_without_state_change
    (nowBase36 randBase36 : String) (st : WState) (deploymentID reason authorID : String)
    (h : ValidateDeployment st deploymentID = false) :
    Revoke nowBase36 randBase36 st deploymentID reason authorID
      = .error "The does not exist, or already has been revoked" ∧
    commit st (Revoke nowBase36 randBase36 st deploymentID reason authorID) = st := by
  constructor
  · simp [Revoke, h]
  · simp [Revoke, h, commit]

/-- Witness for C4 on the empty state. -/
theorem c4_revoke_missing_fails_without_state_change_witness :
    ValidateDeployment [] "D-missing" = false ∧
    (Revoke "l6dyyc3p" "4fzyo82mvyr" [] "D-missing" "x" "A1"
        = .error "The does not exist, or already has been revoked" ∧
      commit [] (Revoke "l6dyyc3p" "4fzyo82mvyr" [] "D-missing" "x" "A1") = []) :=
  ⟨rfl, c4_revoke_missing_fails_without_state_change "l6dyyc3p" "4fzyo82mvyr" [] "D-missing" "x" "A1" rfl⟩

/-- C5: calling the `Deployment` operation on a key and then immediately
calling it again on the same key (any argument tuples, any starting
state): the second call fails with the already-exists error and commits
nothing, so the state after both calls equals the state after the first
call alone.  (When the first call itself failed, the key was already
occupied, and the second call fails the same way.) -/
theorem c5_create_then_create_fails
    (st : WState) (a1 c1 p1 a2 c2 p2 deploymentID : String) :
    Deployment (commit st (Deployment st a1 c1 p1 deploymentID)) a2 c2 p2 deploymentID
      = .error ("The asset " ++ deploymentID ++ " already exists") ∧
    commit (commit st (Deployment st a1 c1 p1 deploymentID))
        (Deployment (commit st (Deployment st a1 c1 p1 deploymentID)) a2 c2 p2 deploymentID)
      = commit st (Deployment st a1 c1 p1 deploymentID) := by
  by_cases h : ValidateDeployment st deploymentID = true
  · have h1 : Deployment st a1 c1 p1 deploymentID
        = .error ("The asset " ++ deploymentID ++ " already exists") := by
      simp [Deployment, h]
    rw [h1]
    have h2 : commit st (Except.error ("The asset " ++ deploymentID ++ " already exists") :
        Except String WState) = st := rfl
    rw [h2]
    constructor
    · simp [Deployment, h]
    · simp [Deployment, h, commit]
  · have h0 : ValidateDeployment st deploymentID = false := by
      simpa using h
    have h1 : Deployment st a1 c1 p1 deploymentID
        = .ok (putState st deploymentID
            (Val.json (sortKeysRecursive (transactionLogRecord deploymentID a1 dateStr c1)))) := by
      simp [Deployment, h0]
      exact putState_putState st deploymentID _ _
    rw [h1]
    have h2 : commit st (Except.ok (putState st deploymentID
        (Val.json (sortKeysRecursive (transactionLogRecord deploymentID a1 dateStr c1))))) =
        putState st deploymentID
          (Val.json (sortKeysRecursive (transactionLogRecord deploymentID a1 dateStr c1))) := rfl
    rw [h2]
    have hocc : ValidateDeployment
        (putState st deploymentID
          (Val.json (sortKeysRecursive (transactionLogRecord deploymentID a1 dateStr c1))))
        deploymentID = true := by
      unfold ValidateDeployment bytesAt
      rw [getState_putState_self]
      have := serialize_jobj_length_ne_zero
        (List.insertionSort fieldLE (sortFields
          [("transactionID", JVal.jstr deploymentID), ("authorID", JVal.jstr a1),
           ("time", JVal.jstr dateStr), ("description", JVal.jstr c1)]))
      simp only [transactionLogRecord, sortKeysRecursive, bytesOf]
      simpa using this
    constructor
    · simp [Deployment, hocc]
    · simp [Deployment, hocc, commit]

/-- C6: deterministic re-execution.  In the embedding every operation is a
function of the committed state and its string arguments (for
`CreateAsset` the serialized timestamp is one of the arguments, supplied
identically to every replica by the dispatcher), so `InitLedger`,
`Deployment` and `CreateAsset` trivially re-execute identically.  The one
operation that samples the environment — `Revoke` calls
`generateUniqueId()`, built from the current time and `Math.random()` — is
insensitive to those inputs, because it throws on the undeclared
identifier `eploymentID` before the generated id can reach any write;
in particular it commits nothing, so re-executing replicas agree. -/
theorem c6_write_operations_deterministic
    (now1 rand1 now2 rand2 : String) (st : WState) (deploymentID reason authorID : String) :
    Revoke now1 rand1 st deploymentID reason authorID
      = Revoke now2 rand2 st deploymentID reason authorID ∧
    commit st (Revoke now1 rand1 st deploymentID reason authorID) = st := by
  constructor
  · rfl
  · by_cases h : ValidateDeployment st deploymentID = true
    · simp [Revoke, h, commit]
    · simp [Revoke, h, commit]

/-- C2: audit entries on successful operations.  A successful `Deployment`
commits exactly one new transaction-log entry, whose `description` is the
creation's comment: the committed state is the starting state plus that
one entry (stored, via the unawaited `CreateAsset` call, under the
deployment's own key, where it overwrites the deployment record — the
collapse proved here).  `Revoke` never succeeds (it throws on the
undeclared identifier `eploymentID`), so the revocation half of the claim
holds vacuously. -/
theorem c2_one_new_log_entry_per_success :
    (∀ (st : WState) (authorID comment payload deploymentID : String) (st' : WState),
        Deployment st authorID comment payload deploymentID = .ok st' →
        st' = putState st deploymentID
            (Val.json (sortKeysRecursive (transactionLogRecord deploymentID authorID dateStr comment))) ∧
        hasField (sortKeysRecursive (transactionLogRecord deploymentID authorID dateStr comment))
          "transactionID" = true ∧
        getField (sortKeysRecursive (transactionLogRecord deploymentID authorID dateStr comment))
          "description" = some (.jstr comment)) ∧
    (∀ (nowBase36 randBase36 : String) (st : WState)
        (deploymentID reason authorID : String) (st' : WState),
        Revoke nowBase36 randBase36 st deploymentID reason authorID ≠ .ok st') := by
  constructor
  · intro st a c p id st' h
    by_cases hv : ValidateDeployment st id = true
    · simp [Deployment, hv] at h
    · simp only [Deployment, hv, Bool.false_eq_true, if_false, if_neg] at h
      injection h with hh
      refine ⟨?_, rfl, rfl⟩
      rw [← hh]
      exact putState_putState st id _ _
  · intro n r st id reason a st' h
    by_cases hv : ValidateDeployment st id = true
    · simp [Revoke, hv] at h
    · simp [Revoke, hv] at h

/-- Witness for C2 at a concrete creation on the empty state. -/
theorem c2_one_new_log_entry_per_success_witness :
    putState
        (putState [] "D1" (Val.json (sortKeysRecursive (deploymentRecord "A1" "hello" "payload" "D1"))))
        "D1" (Val.json (sortKeysRecursive (transactionLogRecord "D1" "A1" dateStr "hello")))
      = putState [] "D1" (Val.json (sortKeysRecursive (transactionLogRecord "D1" "A1" dateStr "hello"))) ∧
    hasField (sortKeysRecursive (transactionLogRecord "D1" "A1" dateStr "hello"))
      "transactionID" = true ∧
    getField (sortKeysRecursive (transactionLogRecord "D1" "A1" dateStr "hello"))
      "description" = some (.jstr "hello") :=
  c2_one_new_log_entry_per_success.1 [] "A1" "hello" "payload" "D1" _ rfl

/-- C3 (counterexample): a transaction-log entry written by `CreateAsset`
under key "1" (a state reachable from the empty state) is overwritten by a
later `InitLedger`, which unconditionally stores the seed revocation under
key "1" — so it is not the case that every operation preserves every
stored transaction-log entry. -/
theorem c3_initLedger_overwrites_log_entry :
    CreateAsset [] "1" "A1" dateStr "seed"
      = .ok [("1", Val.json (sortKeysRecursive (transactionLogRecord "1" "A1" dateStr "seed")))] ∧
    isTransactionLogVal (Val.json (sortKeysRecursive (transactionLogRecord "1" "A1" dateStr "seed"))) = true ∧
    getState (InitLedger [("1", Val.json (sortKeysRecursive (transactionLogRecord "1" "A1" dateStr "seed")))]) "1"
      = some (Val.json (sortKeysRecursive initRevocation)) ∧
    bytesAt (InitLedger [("1", Val.json (sortKeysRecursive (transactionLogRecord "1" "A1" dateStr "seed")))]) "1"
      ≠ bytesAt [("1", Val.json (sortKeysRecursive (transactionLogRecord "1" "A1" dateStr "seed")))] "1" := by
  refine ⟨rfl, rfl, rfl, ?_⟩
  decide

/-- C3 (amended): a stored transaction-log entry is preserved, byte for
byte, by every `Deployment`, `Revoke` and `CreateAsset` operation —
their writes only ever target a key whose value is empty or absent, and
their failures commit nothing.  `InitLedger` is the exception the
counterexample exhibits: it overwrites key "1" unconditionally. -/
theorem c3_log_entries_preserved_by_other_operations
    (st : WState) (k : String) (v : Val)
    (hk : getState st k = some v) (hlog : isTransactionLogVal v = true)
    (authorID comment payload deploymentID : String)
    (nowBase36 randBase36 reason revokeAuthor : String)
    (ID logAuthor time description : String) :
    getState (commit st (Deployment st authorID comment payload deploymentID)) k = some v ∧
    getState (commit st (Revoke nowBase36 randBase36 st deploymentID reason revokeAuthor)) k = some v ∧
    getState (commit st (CreateAsset st ID logAuthor time description)) k = some v := by
  have hbytes : (bytesOf v).length ≠ 0 := isTransactionLogVal_bytes_ne_zero v hlog
  have hgetk : ValidateDeployment st k = true := by
    simp only [ValidateDeployment, bytesAt, hk]
    simpa [bne_iff_ne] using hbytes
  refine ⟨?_, ?_, ?_⟩
  · by_cases hv : ValidateDeployment st deploymentID = true
    · simp [Deployment, hv, commit, hk]
    · have hne : k ≠ deploymentID := by
        intro he
        rw [← he] at hv
        exact hv hgetk
      have hc : commit st (Deployment st authorID comment payload deploymentID)
          = putState
              (putState st deploymentID
                (Val.json (sortKeysRecursive (deploymentRecord authorID comment payload deploymentID))))
              deploymentID
              (Val.json (sortKeysRecursive (transactionLogRecord deploymentID authorID dateStr comment))) := by
        simp [Deployment, hv, commit]
      rw [hc, getState_putState_ne _ _ _ _ hne, getState_putState_ne _ _ _ _ hne, hk]
  · by_cases hv : ValidateDeployment st deploymentID = true
    · simp [Revoke, hv, commit, hk]
    · simp [Revoke, hv, commit, hk]
  · by_cases hv : TransactionExists st ID = true
    · simp [CreateAsset, hv, commit, hk]
    · have hne : k ≠ ID := by
        intro he
        rw [← he] at hv
        exact hv hgetk
      have hc : commit st (CreateAsset st ID logAuthor time description)
          = putState st ID
              (Val.json (sortKeysRecursive (transactionLogRecord ID logAuthor time description))) := by
        simp [CreateAsset, hv, commit]
      rw [hc, getState_putState_ne _ _ _ _ hne, hk]

/-- Witness for the amended C3 at a concrete log entry and concrete
operations. -/
theorem c3_log_entries_preserved_by_other_operations_witness :
    getState
        (commit [("1", Val.json (sortKeysRecursive (transactionLogRecord "1" "A1" dateStr "seed")))]
          (Deployment [("1", Val.json (sortKeysRecursive (transactionLogRecord "1" "A1" dateStr "seed")))]
            "A2" "hi" "pl" "D9"))
        "1" = some (Val.json (sortKeysRecursive (transactionLogRecord "1" "A1" dateStr "seed"))) ∧
    getState
        (commit [("1", Val.json (sortKeysRecursive (transactionLogRecord "1" "A1" dateStr "seed")))]
          (Revoke "l6dyyc3p" "4fzyo82mvyr"
            [("1", Val.json (sortKeysRecursive (transactionLogRecord "1" "A1" dateStr "seed")))]
            "D9" "why" "A2"))
        "1" = some (Val.json (sortKeysRecursive (transactionLogRecord "1" "A1" dateStr "seed"))) ∧
    getState
        (commit [("1", Val.json (sortKeysRecursive (transactionLogRecord "1" "A1" dateStr "seed")))]
          (CreateAsset [("1", Val.json (sortKeysRecursive (transactionLogRecord "1" "A1" dateStr "seed")))]
            "T7" "A3" dateStr "d"))
        "1" = some (Val.json (sortKeysRecursive (transactionLogRecord "1" "A1" dateStr "seed"))) :=
  c3_log_entries_preserved_by_other_operations
    [("1", Val.json (sortKeysRecursive (transactionLogRecord "1" "A1" dateStr "seed")))]
    "1" (Val.json (sortKeysRecursive (transactionLogRecord "1" "A1" dateStr "seed")))
    rfl rfl "A2" "hi" "pl" "D9" "l6dyyc3p" "4fzyo82mvyr" "why" "A2" "T7" "A3" dateStr "d"

/-- C8: every record returned by `GetAllRevocations` has a defined
`RevocationID` field, for every state of the keyspace — records lacking
the field (deployments, transaction logs) and values that fail JSON
parsing are excluded by the scan's filter. -/
theorem c8_listed_revocations_have_id_field (st : WState) (record : JVal)
    (h : record ∈ GetAllRevocations st) : hasField record "RevocationID" = true := by
  unfold GetAllRevocations at h
  rcases List.mem_filterMap.mp h with ⟨p, hp, hf⟩
  cases hparse : parseVal p.2 with
  | none => rw [hparse] at hf; cases hf
  | some q =>
    rw [hparse] at hf
    dsimp only at hf
    by_cases hq : hasField q "RevocationID" = true
    · rw [if_pos hq] at hf
      injection hf with hh
      rw [← hh]
      exact hq
    · rw [if_neg hq] at hf
      cases hf

/-- Witness for C8 on a state holding one record of each kind plus an
unparseable value: the scan returns exactly the revocation. -/
theorem c8_listed_revocations_have_id_field_witness :
    hasField (sortKeysRecursive initRevocation) "RevocationID" = true :=
  c8_listed_revocations_have_id_field
    [("1", Val.json (sortKeysRecursive initRevocation)),
     ("D1", Val.json (sortKeysRecursive (deploymentRecord "A1" "hello" "payload" "D1"))),
     ("T1", Val.json (sortKeysRecursive (transactionLogRecord "T1" "A1" dateStr "d"))),
     ("Z", Val.raw "this is not json")]
    (sortKeysRecursive initRevocation)
    (by
      have he : GetAllRevocations
          [("1", Val.json (sortKeysRecursive initRevocation)),
           ("D1", Val.json (sortKeysRecursive (deploymentRecord "A1" "hello" "payload" "D1"))),
           ("T1", Val.json (sortKeysRecursive (transactionLogRecord "T1" "A1" dateStr "d"))),
           ("Z", Val.raw "this is not json")]
          = [sortKeysRecursive initRevocation] := rfl
      rw [he]
      exact List.mem_singleton.mpr rfl)

/-- C9 (code bug): one `Deployment` operation writes records of two
different kinds under the same key.  On the empty state,
`Deployment("A1","hello","payload","D1")` issues `putState` of the
deployment record and then `putState` of the transaction-log record, both
under key "D1" (the unawaited `CreateAsset` call is passed `deploymentID`
as the log's id); the later log write overwrites the deployment record, so
the committed bytes at "D1" are the log entry's. -/
theorem c9_deployment_writes_two_kinds_under_one_key :
    Deployment [] "A1" "hello" "payload" "D1"
      = .ok (putState
          (putState [] "D1"
            (Val.json (sortKeysRecursive (deploymentRecord "A1" "hello" "payload" "D1"))))
          "D1"
          (Val.json (sortKeysRecursive (transactionLogRecord "D1" "A1" dateStr "hello")))) ∧
    hasField (sortKeysRecursive (deploymentRecord "A1" "hello" "payload" "D1")) "deploymentID" = true ∧
    hasField (sortKeysRecursive (deploymentRecord "A1" "hello" "payload" "D1")) "transactionID" = false ∧
    hasField (sortKeysRecursive (transactionLogRecord "D1" "A1" dateStr "hello")) "transactionID" = true ∧
    hasField (sortKeysRecursive (transactionLogRecord "D1" "A1" dateStr "hello")) "deploymentID" = false ∧
    bytesAt (commit [] (Deployment [] "A1" "hello" "payload" "D1")) "D1"
      = serialize (sortKeysRecursive (transactionLogRecord "D1" "A1" dateStr "hello")) :=
  ⟨rfl, rfl, rfl, rfl, rfl, rfl⟩
